import Mathlib

/-!
Verification of the rsim RV64 simulator core (src/lib.rs, src/inst.rs,
src/main.rs) against its natural-language specification.

Conventions of the embedding:
* `u64` / `usize` values are modeled as `Nat`.  Arithmetic that the source
  performs with explicitly wrapping operations (`wrapping_add`, casts such as
  `as u64`, `as i32`) is modeled with explicit `% 2^64` / `% 2^32` reductions;
  plain `+` on addresses (which would panic on overflow in a debug build) is
  modeled as plain `Nat` addition, and the theorems below carry no-overflow
  side conditions where that matters.
* Signed machine integers are interpreted through `toSigned w`, which reads
  the low `w` bits of a `Nat` as a two's-complement value, and results are
  written back to bit patterns with `toUnsigned w`.
* Fallible operations return `Option`; a Rust panic (`unreachable!`,
  `expect` on `checked_sub`, out-of-bounds slice index) is modeled by the
  dedicated `AdvResult.panic` outcome (or `none`).
* Mutation of `&mut Program` is modeled by explicit state passing: each
  operation returns the updated `Program` alongside its Rust return value.
-/

/-- Sentinel halt address, `HLT_ADDR` in src/lib.rs: `0xFFFFFFFFFFFFFFFE`. -/
def HLT_ADDR : Nat := 0xFFFFFFFFFFFFFFFE

/-- Interpret the low `w` bits of `x` as a two's-complement signed integer. -/
def toSigned (w : Nat) (x : Nat) : Int :=
  if x % 2 ^ w < 2 ^ (w - 1) then ((x % 2 ^ w : Nat) : Int)
  else ((x % 2 ^ w : Nat) : Int) - 2 ^ w

/-- The `w`-bit two's-complement pattern of the integer `z` (models the Rust
casts `as u64` / `as u32` applied to a signed value). -/
def toUnsigned (w : Nat) (z : Int) : Nat := (Int.emod z (2 ^ w)).toNat

/-- Model of `x as i64` for a `u64` bit pattern `x`. -/
def toI64 (x : Nat) : Int := toSigned 64 x

/-- Model of `x as i32` for the low 32 bits of `x`. -/
def toI32 (x : Nat) : Int := toSigned 32 x

/-- Model of `z as u64` for an `i64`-ranged (or wider, wrapping) integer. -/
def toU64 (z : Int) : Nat := toUnsigned 64 z

/-- Model of the Rust cast chain `as i32 as i64 as u64`: sign-extend the low
32 bits of a pattern to a 64-bit pattern. -/
def sext32u (x : Nat) : Nat := toU64 (toI32 x)

/-- `u64::wrapping_shl` on bit patterns (the shift amount is masked mod 64). -/
def wshl64 (x s : Nat) : Nat := ((x % 2 ^ 64) <<< (s % 64)) % 2 ^ 64

/-- `u64::wrapping_shr` on bit patterns. -/
def wshr64 (x s : Nat) : Nat := (x % 2 ^ 64) >>> (s % 64)

/-- `i64::wrapping_shr` (arithmetic right shift, i.e. floor division of the
signed value by `2^(s % 64)`), returned as a 64-bit pattern. -/
def sashr64 (x s : Nat) : Nat := toU64 (Int.fdiv (toI64 x) ((2 : Int) ^ (s % 64)))

/-- `u32::wrapping_shl` / `i32::wrapping_shl` on the low 32 bits (left shifts
agree for the signed and unsigned types at the bit-pattern level). -/
def wshl32 (x s : Nat) : Nat := ((x % 2 ^ 32) <<< (s % 32)) % 2 ^ 32

/-- `u32::wrapping_shr` on the low 32 bits. -/
def wshr32 (x s : Nat) : Nat := (x % 2 ^ 32) >>> (s % 32)

/-- `i32::wrapping_shr` (arithmetic) on the low 32 bits, as a 32-bit pattern. -/
def sashr32 (x s : Nat) : Nat := toUnsigned 32 (Int.fdiv (toI32 x) ((2 : Int) ^ (s % 32)))

/-- RV64I register identifiers, src/lib.rs `enum RegID`. -/
inductive RegID where
  | X0 | X1 | X2 | X3 | X4 | X5 | X6 | X7
  | X8 | X9 | X10 | X11 | X12 | X13 | X14 | X15
  | X16 | X17 | X18 | X19 | X20 | X21 | X22 | X23
  | X24 | X25 | X26 | X27 | X28 | X29 | X30 | X31
deriving DecidableEq, Repr

/-- `RegID::decode` from src/lib.rs: a 5-bit encoding to a register id (the
out-of-range default, which cannot occur for masked fields, is `X0`). -/
def RegID.decode (encoding : Nat) : RegID :=
  match encoding with
  | 0 => .X0 | 1 => .X1 | 2 => .X2 | 3 => .X3
  | 4 => .X4 | 5 => .X5 | 6 => .X6 | 7 => .X7
  | 8 => .X8 | 9 => .X9 | 10 => .X10 | 11 => .X11
  | 12 => .X12 | 13 => .X13 | 14 => .X14 | 15 => .X15
  | 16 => .X16 | 17 => .X17 | 18 => .X18 | 19 => .X19
  | 20 => .X20 | 21 => .X21 | 22 => .X22 | 23 => .X23
  | 24 => .X24 | 25 => .X25 | 26 => .X26 | 27 => .X27
  | 28 => .X28 | 29 => .X29 | 30 => .X30 | 31 => .X31
  | _ => .X0

/-- Pipeline stages, src/inst.rs `enum Stage`. -/
inductive Stage where
  | Fetch | Decode | Execute | Memory | Writeback
deriving DecidableEq, Repr

/-- Decoded operations, src/inst.rs `enum InstCode`.  The Rust `i16`/`i32`
immediate fields are modeled as `Int` (the parser only ever stores values in
the corresponding signed range); CSR/fence payloads are modeled as `Nat`. -/
inductive InstCode where
  | Add (rd rs1 rs2 : RegID)
  | Mul (rd rs1 rs2 : RegID)
  | Sub (rd rs1 rs2 : RegID)
  | Sll (rd rs1 rs2 : RegID)
  | Mulh (rd rs1 rs2 : RegID)
  | Slt (rd rs1 rs2 : RegID)
  | Sltu (rd rs1 rs2 : RegID)
  | Xor (rd rs1 rs2 : RegID)
  | Div (rd rs1 rs2 : RegID)
  | Srl (rd rs1 rs2 : RegID)
  | Sra (rd rs1 rs2 : RegID)
  | Or (rd rs1 rs2 : RegID)
  | Rem (rd rs1 rs2 : RegID)
  | And (rd rs1 rs2 : RegID)
  | Addw (rd rs1 rs2 : RegID)
  | Subw (rd rs1 rs2 : RegID)
  | Mulw (rd rs1 rs2 : RegID)
  | Divw (rd rs1 rs2 : RegID)
  | Sllw (rd rs1 rs2 : RegID)
  | Srlw (rd rs1 rs2 : RegID)
  | Sraw (rd rs1 rs2 : RegID)
  | Remw (rd rs1 rs2 : RegID)
  | Lb (rd rs1 : RegID) (imm : Int)
  | Lbu (rd rs1 : RegID) (imm : Int)
  | Lh (rd rs1 : RegID) (imm : Int)
  | Lhu (rd rs1 : RegID) (imm : Int)
  | Lw (rd rs1 : RegID) (imm : Int)
  | Lwu (rd rs1 : RegID) (imm : Int)
  | Ld (rd rs1 : RegID) (imm : Int)
  | Addi (rd rs1 : RegID) (imm : Int)
  | Slli (rd rs1 : RegID) (imm : Int)
  | Slliw (rd rs1 : RegID) (imm : Int)
  | Slti (rd rs1 : RegID) (imm : Int)
  | Sltiu (rd rs1 : RegID) (imm : Int)
  | Xori (rd rs1 : RegID) (imm : Int)
  | Srli (rd rs1 : RegID) (imm : Int)
  | Srliw (rd rs1 : RegID) (imm : Int)
  | Srai (rd rs1 : RegID) (imm : Int)
  | Sraiw (rd rs1 : RegID) (imm : Int)
  | Ori (rd rs1 : RegID) (imm : Int)
  | Andi (rd rs1 : RegID) (imm : Int)
  | Addiw (rd rs1 : RegID) (imm : Int)
  | Jalr (rd rs1 : RegID) (imm : Int)
  | Ecall
  | Sb (rs1 rs2 : RegID) (imm : Int)
  | Sh (rs1 rs2 : RegID) (imm : Int)
  | Sw (rs1 rs2 : RegID) (imm : Int)
  | Sd (rs1 rs2 : RegID) (imm : Int)
  | Beq (rs1 rs2 : RegID) (imm : Int)
  | Bne (rs1 rs2 : RegID) (imm : Int)
  | Blt (rs1 rs2 : RegID) (imm : Int)
  | Bge (rs1 rs2 : RegID) (imm : Int)
  | Bltu (rs1 rs2 : RegID) (imm : Int)
  | Bgeu (rs1 rs2 : RegID) (imm : Int)
  | Auipc (rd : RegID) (imm : Int)
  | Lui (rd : RegID) (imm : Int)
  | Jal (rd : RegID) (imm : Int)
  | Fence (pred succ : Nat)
  | FenceI
  | Csrrw (rd rs1 : RegID) (csr : Nat)
  | Csrrs (rd rs1 : RegID) (csr : Nat)
  | Csrrc (rd rs1 : RegID) (csr : Nat)
  | Csrrwi (rd : RegID) (csr : Nat) (uimm : Nat)
  | Csrrsi (rd : RegID) (csr : Nat) (uimm : Nat)
  | Csrrci (rd : RegID) (csr : Nat) (uimm : Nat)
  | Ebreak
  | Uret
  | Sret
  | Mret
  | Wfi
  | SfenceVma (rs1 rs2 : RegID)
  | IllegalCf (raw : Nat)
  | IllegalProlonged
  | Unknown (raw : Nat)
  | UnknownC (raw : Nat)
  | DivRem (rdq rdr rs1 rs2 : RegID)

/-- One register, src/lib.rs `struct Register`: 64-bit value, write-pending
counter, one forwarding slot, and the forwarding feature flag. -/
structure Register where
  id : RegID
  value : Nat
  write_cnt : Nat
  forward_values : Option Nat
  enable_forwarding : Bool
deriving DecidableEq, Repr

/-- `Register::write`: writes are silently dropped for x0. -/
def Register.write (r : Register) (v : Nat) : Register :=
  if r.id = RegID.X0 then r else { r with value := v }

/-- `Register::read`: x0 reads 0; with a pending write, the forwarded value
is consulted when forwarding is enabled, otherwise the read is "not ready". -/
def Register.read (r : Register) : Option Nat :=
  if r.id = RegID.X0 then some 0
  else if r.write_cnt = 0 then some r.value
  else if r.enable_forwarding then r.forward_values
  else none

/-- `Register::lock`: increment the write-pending counter. -/
def Register.lock (r : Register) : Register :=
  { r with write_cnt := r.write_cnt + 1 }

/-- `Register::unlock`: decrement the write-pending counter; the Rust
`checked_sub(..).expect(..)` panic on underflow is modeled by `none`. -/
def Register.unlock (r : Register) : Option Register :=
  match r.write_cnt with
  | 0 => none
  | n + 1 => some { r with write_cnt := n }

/-- `Register::forward`: record a forwarded value when the feature is on.
The stage argument is ignored by the source as well. -/
def Register.forward (r : Register) (v : Nat) (_stage : Stage) : Register :=
  if r.enable_forwarding then { r with forward_values := some v } else r

/-- `Register::update_forward`: clear the forwarding slot (no-op when the
feature is off, where the slot is never populated anyway). -/
def Register.update_forward (r : Register) : Register :=
  if r.enable_forwarding then { r with forward_values := none } else r

/-- The register file, src/lib.rs `struct RegisterFile`.  The Rust array
`[Register; 32]` indexed by `id.encode()` is modeled as a total function from
`RegID`; slot `i` of the array corresponds to `RegID.decode i`. -/
structure RegisterFile where
  registers : RegID → Register

/-- `RegisterFile::read`. -/
def RegisterFile.read (rf : RegisterFile) (id : RegID) : Option Nat :=
  (rf.registers id).read

/-- `RegisterFile::write`. -/
def RegisterFile.write (rf : RegisterFile) (id : RegID) (v : Nat) : RegisterFile :=
  { registers := fun j => if j = id then (rf.registers id).write v else rf.registers j }

/-- `RegisterFile::lock`. -/
def RegisterFile.lock (rf : RegisterFile) (id : RegID) : RegisterFile :=
  { registers := fun j => if j = id then (rf.registers id).lock else rf.registers j }

/-- `RegisterFile::unlock`; underflow of the per-register counter panics in
the source and is modeled by `none`. -/
def RegisterFile.unlock (rf : RegisterFile) (id : RegID) : Option RegisterFile :=
  match (rf.registers id).unlock with
  | none => none
  | some r => some { registers := fun j => if j = id then r else rf.registers j }

/-- `RegisterFile::forward`. -/
def RegisterFile.forward (rf : RegisterFile) (id : RegID) (v : Nat) (s : Stage) :
    RegisterFile :=
  { registers := fun j => if j = id then (rf.registers id).forward v s else rf.registers j }

/-- `RegisterFile::update_forward`: clear every forwarding slot. -/
def RegisterFile.update_forward (rf : RegisterFile) : RegisterFile :=
  { registers := fun j => (rf.registers j).update_forward }

/-- C7: for a well-formed register file (each slot carries its own id, as the
loader builds it): x0 reads `some 0`; a register other than x0 reads its
stored value when no write is pending, otherwise the forwarded value exactly
when forwarding is enabled and a value is present, otherwise "not ready";
and writing x0 leaves every register unchanged. -/
theorem c7_register_read_write (rf : RegisterFile) (id : RegID)
    (h0 : (rf.registers RegID.X0).id = RegID.X0)
    (hid : (rf.registers id).id = id) :
    rf.read RegID.X0 = some 0
    ∧ (id ≠ RegID.X0 →
        rf.read id =
          (if (rf.registers id).write_cnt = 0 then some (rf.registers id).value
           else if (rf.registers id).enable_forwarding then (rf.registers id).forward_values
           else none))
    ∧ (∀ v j, (rf.write RegID.X0 v).registers j = rf.registers j) := by
  refine ⟨?_, ?_, ?_⟩
  · simp [RegisterFile.read, Register.read, h0]
  · intro hne
    simp [RegisterFile.read, Register.read, hid, hne]
  · intro v j
    simp only [RegisterFile.write, Register.write, h0, if_pos rfl]
    by_cases hj : j = RegID.X0 <;> simp [hj]

/-- Concrete register file used by witnesses: all registers hold their own
id, value 5 at X5 with no pending writes, a pending write at X6. -/
def rfW : RegisterFile :=
  { registers := fun j =>
      { id := j
        value := if j = RegID.X5 then 5 else 0
        write_cnt := if j = RegID.X6 then 1 else 0
        forward_values := none
        enable_forwarding := false } }

/-- Witness for C7 at a concrete register file and register X5. -/
theorem c7_register_read_write_witness :
    rfW.read RegID.X0 = some 0
    ∧ rfW.read RegID.X5 = some 5
    ∧ (∀ j, (rfW.write RegID.X0 77).registers j = rfW.registers j) := by
  have h := c7_register_read_write rfW RegID.X5 rfl rfl
  refine ⟨h.1, ?_, fun j => h.2.2 77 j⟩
  have h2 := h.2.1 (by decide)
  simpa [rfW] using h2

/-- A virtual memory area, src/lib.rs `struct VMA`: byte storage is a list of
byte values (the field name `writeble` is kept as spelled in the source). -/
structure VMA where
  lower_bound : Nat
  size : Nat
  readable : Bool
  writeble : Bool
  executable : Bool
  memory : List Nat
deriving DecidableEq, Repr

/-- The predicate with which both `mem_load` and `mem_store` locate a VMA:
`v.lower_bound <= addr && v.lower_bound + v.size > addr`. -/
def vmaContains (addr : Nat) (v : VMA) : Bool :=
  decide (v.lower_bound ≤ addr ∧ addr < v.lower_bound + v.size)

/-- The process image, src/lib.rs `struct Program`.  The collaborator-facing
fields (`simulated_library_funcs`, `funcs`, `pause`, `breakpoints`) are
omitted: none of the embedded operations reads or writes them. -/
structure Program where
  entry_point : Nat
  program_counter : Nat
  registers : RegisterFile
  vmas : List VMA

/-- `Program::mem_load` from src/lib.rs lines 399-418: locate the first VMA
containing `addr`; reject when absent or when
`!vma.readable && (!execute || vma.executable)` (sic — this is the condition
exactly as written in the source); otherwise return the bytes up to the VMA's
upper bound together with the length that did not fit. -/
def Program.mem_load (p : Program) (addr sz : Nat) (execute : Bool) :
    Option (List Nat × Nat) :=
  match List.find? (vmaContains addr) p.vmas with
  | none => none
  | some vma =>
      if !vma.readable && (!execute || vma.executable) then none
      else
        let endo := min (vma.lower_bound + vma.size) (addr + sz) - vma.lower_bound
        let start := addr - vma.lower_bound
        some ((vma.memory.drop start).take (endo - start), sz - (endo - start))

/-- Execute-only VMA (readable = false, executable = true). -/
def vmaXO : VMA :=
  { lower_bound := 0x1000, size := 16, readable := false, writeble := false,
    executable := true, memory := List.replicate 16 0 }

/-- VMA that is neither readable nor executable. -/
def vmaNRNX : VMA :=
  { lower_bound := 0x1000, size := 16, readable := false, writeble := false,
    executable := false, memory := List.replicate 16 0 }

/-- Program image holding only the execute-only VMA. -/
def pXO : Program :=
  { entry_point := 0x1000, program_counter := 0x1000, registers := rfW, vmas := [vmaXO] }

/-- Program image holding only the unreadable, non-executable VMA. -/
def pNRNX : Program :=
  { entry_point := 0x1000, program_counter := 0x1000, registers := rfW, vmas := [vmaNRNX] }

/-- C1 context, C2 evaluation: the permission test of `mem_load` behaves
opposite to the specification.  A fetch (`is_fetch = true`) from a VMA that
is executable but not readable is rejected, a fetch from a VMA that is
neither readable nor executable succeeds, and an address outside every VMA
is rejected.  This pins the missing negation in
`!vma.readable && (!execute || vma.executable)` (src/lib.rs line 408). -/
theorem c2_mem_load_fetch_permission_eval :
    pXO.mem_load 0x1000 4 true = none
    ∧ pNRNX.mem_load 0x1000 4 true = some ([0, 0, 0, 0], 0)
    ∧ pXO.mem_load 0x2000 4 true = none := by
  refine ⟨rfl, ?_, rfl⟩
  rfl

/-- Readable/writable data VMA with recognisable contents. -/
def vmaRW : VMA :=
  { lower_bound := 0x1000, size := 8, readable := true, writeble := true,
    executable := false, memory := [1, 2, 3, 4, 5, 6, 7, 8] }

/-- Program image holding only `vmaRW`. -/
def pRW : Program :=
  { entry_point := 0x1000, program_counter := 0x1000, registers := rfW, vmas := [vmaRW] }

/-- C10: on every successful `mem_load`, the returned byte count plus the
returned remainder equals the requested size; the remainder is zero exactly
when `addr + sz` stays within the containing VMA's upper bound; and each
returned byte is the VMA's stored byte at offset `addr - lower_bound`. -/
theorem c10_mem_load_lengths (p : Program) (addr sz : Nat) (ex : Bool)
    (v : VMA) (data : List Nat) (rem : Nat)
    (hfind : List.find? (vmaContains addr) p.vmas = some v)
    (hlen : v.memory.length = v.size)
    (h : p.mem_load addr sz ex = some (data, rem)) :
    data.length + rem = sz
    ∧ (rem = 0 ↔ addr + sz ≤ v.lower_bound + v.size)
    ∧ (∀ k, k < data.length → data[k]? = v.memory[(addr - v.lower_bound) + k]?) := by
  have hp := List.find?_some hfind
  rw [vmaContains, decide_eq_true_iff] at hp
  obtain ⟨hlb, hub⟩ := hp
  unfold Program.mem_load at h
  rw [hfind] at h
  dsimp only at h
  by_cases hcond : (!v.readable && (!ex || v.executable)) = true
  · rw [if_pos hcond] at h
    exact absurd h (by simp)
  · rw [if_neg hcond] at h
    simp only [Option.some.injEq, Prod.mk.injEq] at h
    obtain ⟨hdata, hrem⟩ := h
    have hdl : data.length =
        min (v.lower_bound + v.size) (addr + sz) - v.lower_bound - (addr - v.lower_bound) := by
      rw [← hdata]
      simp only [List.length_take, List.length_drop, hlen]
      omega
    refine ⟨by omega, by omega, ?_⟩
    intro k hk
    rw [← hdata]
    rw [List.getElem?_take, if_pos (by omega), List.getElem?_drop]

/-- Witness for C10: a concrete in-bounds load from `pRW`. -/
theorem c10_mem_load_lengths_witness :
    pRW.mem_load 0x1002 4 false = some ([3, 4, 5, 6], 0)
    ∧ ([3, 4, 5, 6] : List Nat).length + 0 = 4
    ∧ (0x1002 + 4 ≤ vmaRW.lower_bound + vmaRW.size)
    ∧ ([3, 4, 5, 6] : List Nat)[1]? = vmaRW.memory[(0x1002 - vmaRW.lower_bound) + 1]? := by
  have h := c10_mem_load_lengths pRW 0x1002 4 false vmaRW [3, 4, 5, 6] 0 rfl rfl rfl
  exact ⟨rfl, h.1, h.2.1.mp rfl, h.2.2 1 (by decide)⟩

/-- Zipper view of `self.vmas.iter_mut().find(..)` as used by `mem_store`:
returns the prefix of VMAs that fail the predicate, the first hit, and the
rest, so that the in-place mutation of the hit can be modeled functionally. -/
def splitFirst (q : VMA → Bool) : List VMA → Option (List VMA × VMA × List VMA)
  | [] => none
  | v :: rest =>
    if q v then some ([], v, rest)
    else
      match splitFirst q rest with
      | none => none
      | some (pre, u, post) => some (v :: pre, u, post)

/-- The element found by `splitFirst` satisfies the predicate. -/
theorem splitFirst_pred {q : VMA → Bool} {l pre post : List VMA} {v : VMA}
    (h : splitFirst q l = some (pre, v, post)) : q v = true := by
  induction l generalizing pre v post with
  | nil => simp [splitFirst] at h
  | cons w rest ih =>
    simp only [splitFirst] at h
    by_cases hw : q w
    · rw [if_pos hw] at h
      cases h
      exact hw
    · rw [if_neg hw] at h
      cases hr : splitFirst q rest with
      | none => rw [hr] at h; cases h
      | some x =>
        obtain ⟨pre1, u, post1⟩ := x
        rw [hr] at h
        cases h
        exact ih hr

/-- `splitFirst` really is a decomposition of its input list. -/
theorem splitFirst_eq {q : VMA → Bool} {l pre post : List VMA} {v : VMA}
    (h : splitFirst q l = some (pre, v, post)) : l = pre ++ v :: post := by
  induction l generalizing pre v post with
  | nil => simp [splitFirst] at h
  | cons w rest ih =>
    simp only [splitFirst] at h
    by_cases hw : q w
    · rw [if_pos hw] at h
      cases h
      rfl
    · rw [if_neg hw] at h
      cases hr : splitFirst q rest with
      | none => rw [hr] at h; cases h
      | some x =>
        obtain ⟨pre1, u, post1⟩ := x
        rw [hr] at h
        cases h
        simp [ih hr]

/-- Every element of the prefix returned by `splitFirst` fails the predicate. -/
theorem splitFirst_pre_fails {q : VMA → Bool} {l pre post : List VMA} {v : VMA}
    (h : splitFirst q l = some (pre, v, post)) : ∀ u ∈ pre, q u = false := by
  induction l generalizing pre v post with
  | nil => simp [splitFirst] at h
  | cons w rest ih =>
    simp only [splitFirst] at h
    by_cases hw : q w
    · rw [if_pos hw] at h
      cases h
      intro u hu
      exact absurd hu (List.not_mem_nil u)
    · rw [if_neg hw] at h
      cases hr : splitFirst q rest with
      | none => rw [hr] at h; cases h
      | some x =>
        obtain ⟨pre1, u0, post1⟩ := x
        rw [hr] at h
        cases h
        intro u hu
        rcases List.mem_cons.mp hu with rfl | hu'
        · simpa using hw
        · exact ih hr u hu'

/-- `find?` over a list decomposed by `splitFirst`-style evidence. -/
theorem find?_of_split {q : VMA → Bool} {pre post : List VMA} {v : VMA}
    (hpre : ∀ u ∈ pre, q u = false) (hv : q v = true) :
    List.find? q (pre ++ v :: post) = some v := by
  induction pre with
  | nil => simp [List.find?, hv]
  | cons w rest ih =>
    have hw : q w = false := hpre w (by simp)
    simp only [List.cons_append, List.find?, hw]
    exact ih fun u hu => hpre u (by simp [hu])

/-- `splitFirst` agrees with `List.find?`. -/
theorem splitFirst_find? {q : VMA → Bool} {l pre post : List VMA} {v : VMA}
    (h : splitFirst q l = some (pre, v, post)) : List.find? q l = some v := by
  rw [splitFirst_eq h]
  exact find?_of_split (splitFirst_pre_fails h) (splitFirst_pred h)

/-- Models `vma.memory[start..endo].copy_from_slice(src)` for
`src.length = endo - start`: the bytes between `start` and `endo` are
replaced by `src`. -/
def writeBytes (mem : List Nat) (start endo : Nat) (src : List Nat) : List Nat :=
  mem.take start ++ src ++ mem.drop endo

/-- The `while cur < sz` loop of `Program::mem_store` (src/lib.rs lines
421-452), acting on the VMA list: find the VMA containing `addr + cur`
(failing if absent or not writable), copy the run
`data[cur..cur + (endo - start)]` into it, and continue at the end of the
run.  `endo`/`start` are the source's `end`/`start` (`end` is reserved in
Lean). -/
def Program.mem_store_go (vmas : List VMA) (addr : Nat) (data : List Nat) (cur : Nat) :
    Bool × List VMA :=
  if hcur : cur < data.length then
    match hs : splitFirst (vmaContains (addr + cur)) vmas with
    | none => (false, vmas)
    | some (pre, v, post) =>
      if v.writeble = false then (false, vmas)
      else
        let endo := min (v.lower_bound + v.size) (addr + data.length) - v.lower_bound
        let start := addr + cur - v.lower_bound
        let nxt := cur + (endo - start)
        Program.mem_store_go
          (pre ++ { v with
                    memory := writeBytes v.memory start endo ((data.drop cur).take (nxt - cur)) }
               :: post)
          addr data nxt
  else (true, vmas)
termination_by data.length - cur
decreasing_by
  have hq := splitFirst_pred hs
  rw [vmaContains, decide_eq_true_iff] at hq
  omega

/-- `Program::mem_store`: run the store loop from `cur = 0` and return the
success flag together with the updated program. -/
def Program.mem_store (p : Program) (addr : Nat) (data : List Nat) : Bool × Program :=
  let r := Program.mem_store_go p.vmas addr data 0
  (r.1, { p with vmas := r.2 })

/-- C8: storing `data` entirely inside one readable-and-writable VMA
succeeds, and an immediate `mem_load` of the same range returns exactly
`data` with remainder 0. -/
theorem c8_store_load_roundtrip (p : Program) (addr : Nat) (data : List Nat)
    (pre post : List VMA) (v : VMA)
    (hsplit : splitFirst (vmaContains addr) p.vmas = some (pre, v, post))
    (hr : v.readable = true) (hw : v.writeble = true)
    (hmem : v.memory.length = v.size)
    (hbound : addr + data.length ≤ v.lower_bound + v.size) :
    (p.mem_store addr data).1 = true
    ∧ (p.mem_store addr data).2.mem_load addr data.length false = some (data, 0) := by
  have hq := splitFirst_pred hsplit
  have hqv := hq
  rw [vmaContains, decide_eq_true_iff] at hq
  obtain ⟨hlb, hub⟩ := hq
  rcases Nat.eq_zero_or_pos data.length with hlen0 | hlenpos
  · -- empty store: the loop exits immediately and the load reads 0 bytes
    obtain rfl : data = [] := List.length_eq_zero.mp hlen0
    have hgo : Program.mem_store_go p.vmas addr ([] : List Nat) 0 = (true, p.vmas) := by
      rw [Program.mem_store_go]
      simp
    constructor
    · simp [Program.mem_store, hgo]
    · simp only [Program.mem_store, hgo]
      unfold Program.mem_load
      rw [splitFirst_find? hsplit]
      dsimp only
      rw [if_neg (by simp [hr])]
      simp only [List.length_nil]
      have h0 : min (v.lower_bound + v.size) (addr + 0) - v.lower_bound -
          (addr - v.lower_bound) = 0 := by omega
      rw [h0]
      simp
  · -- non-empty store: a single loop iteration copies all of `data`
    have hgo : Program.mem_store_go p.vmas addr data 0 =
        (true,
          pre ++ { v with
                   memory := v.memory.take (addr - v.lower_bound) ++ data ++
                     v.memory.drop (addr + data.length - v.lower_bound) } :: post) := by
      rw [Program.mem_store_go]
      rw [dif_pos (by omega : (0 : Nat) < data.length)]
      split
      · rename_i heq
        rw [Nat.add_zero, hsplit] at heq
        cases heq
      · rename_i pre1 v1 post1 heq
        rw [Nat.add_zero, hsplit] at heq
        cases heq
        rw [if_neg (by simp [hw])]
        dsimp only
        have e1 : 0 + (min (v.lower_bound + v.size) (addr + data.length) - v.lower_bound -
            (addr + 0 - v.lower_bound)) = data.length := by omega
        rw [e1]
        rw [Program.mem_store_go]
        rw [dif_neg (by omega : ¬ data.length < data.length)]
        rw [writeBytes]
        simp only [Nat.sub_zero, List.drop_zero, List.take_length, Nat.add_zero,
          min_eq_right hbound]
    have hfind2 : List.find? (vmaContains addr)
        (pre ++ { v with
                  memory := v.memory.take (addr - v.lower_bound) ++ data ++
                    v.memory.drop (addr + data.length - v.lower_bound) } :: post) =
        some { v with
               memory := v.memory.take (addr - v.lower_bound) ++ data ++
                 v.memory.drop (addr + data.length - v.lower_bound) } :=
      find?_of_split (splitFirst_pre_fails hsplit) hqv
    constructor
    · simp [Program.mem_store, hgo]
    · simp only [Program.mem_store, hgo]
      unfold Program.mem_load
      rw [hfind2]
      dsimp only
      rw [if_neg (by simp [hr])]
      have hmin : min (v.lower_bound + v.size) (addr + data.length) = addr + data.length :=
        min_eq_right hbound
      simp only [hmin]
      have hdrop : (v.memory.take (addr - v.lower_bound) ++ data ++
          v.memory.drop (addr + data.length - v.lower_bound)).drop (addr - v.lower_bound) =
          data ++ v.memory.drop (addr + data.length - v.lower_bound) := by
        rw [List.append_assoc, List.drop_append_eq_append_drop]
        have hl1 : (v.memory.take (addr - v.lower_bound)).length = addr - v.lower_bound := by
          rw [List.length_take]
          omega
        rw [List.drop_eq_nil_of_le (by rw [hl1])]
        rw [hl1]
        simp
      have hcount : addr + data.length - v.lower_bound - (addr - v.lower_bound) =
          data.length := by omega
      rw [hcount, hdrop]
      rw [List.take_append_eq_append_take, List.take_length]
      simp

/-- Small read-write VMA used by the C8 witness. -/
def vmaW8 : VMA :=
  { lower_bound := 0x2000, size := 4, readable := true, writeble := true,
    executable := false, memory := [0, 0, 0, 0] }

/-- Program image holding only `vmaW8`. -/
def pW8 : Program :=
  { entry_point := 0x2000, program_counter := 0x2000, registers := rfW, vmas := [vmaW8] }

/-- Witness for C8: store two bytes at `0x2001` and read them back. -/
theorem c8_store_load_roundtrip_witness :
    (pW8.mem_store 0x2001 [7, 9]).1 = true
    ∧ (pW8.mem_store 0x2001 [7, 9]).2.mem_load 0x2001 2 false = some ([7, 9], 0) :=
  c8_store_load_roundtrip pW8 0x2001 [7, 9] [] [] vmaW8 rfl rfl rfl rfl (by decide)

/-- The quark crate's `Signs::sign_extend(k)` applied to an `i16` holding a
nonnegative field value `x < 2^(16-k)` (the only way the parser uses it):
`(x << k) >> k` with an arithmetic right shift interprets the low `16 - k`
bits of `x` as a signed value. -/
def sign_extend16 (x k : Nat) : Int := toSigned (16 - k) x

/-- `Signs::sign_extend(k)` on an `i32`, same convention as `sign_extend16`. -/
def sign_extend32 (x k : Nat) : Int := toSigned (32 - k) x

/-- `InstCode::parse_compressed` (src/inst.rs lines 147-230): the body begins
with `return InstCode::UnknownC(raw);` under the comment `!!!Unfinished!!!`,
which makes the whole compressed-expansion table below it dead code.  The
embedding is therefore exactly this early return. -/
def InstCode.parse_compressed (raw : Nat) : InstCode := InstCode.UnknownC raw

/-- `InstCode::parse_normal_r` (src/inst.rs).  The final `unreachable!()` arm
(opcode not 0x33/0x3B, dead at the single call site) is modeled as
`Unknown raw`. -/
def InstCode.parse_normal_r (raw : Nat) : InstCode :=
  let opcode := raw &&& 0b1111111
  let rd := RegID.decode ((raw >>> 7) &&& 0b11111)
  let func3 := (raw >>> 12) &&& 0b111
  let rs1 := RegID.decode ((raw >>> 15) &&& 0b11111)
  let rs2 := RegID.decode ((raw >>> 20) &&& 0b11111)
  let func7 := (raw >>> 25) &&& 0b1111111
  if opcode = 0x33 then
    if func3 = 0 ∧ func7 = 0x00 then .Add rd rs1 rs2
    else if func3 = 0 ∧ func7 = 0x01 then .Mul rd rs1 rs2
    else if func3 = 0 ∧ func7 = 0x20 then .Sub rd rs1 rs2
    else if func3 = 1 ∧ func7 = 0x00 then .Sll rd rs1 rs2
    else if func3 = 1 ∧ func7 = 0x01 then .Mulh rd rs1 rs2
    else if func3 = 2 ∧ func7 = 0x00 then .Slt rd rs1 rs2
    else if func3 = 3 ∧ func7 = 0x00 then .Sltu rd rs1 rs2
    else if func3 = 4 ∧ func7 = 0x00 then .Xor rd rs1 rs2
    else if func3 = 4 ∧ func7 = 0x01 then .Div rd rs1 rs2
    else if func3 = 5 ∧ func7 = 0x00 then .Srl rd rs1 rs2
    else if func3 = 5 ∧ func7 = 0x20 then .Sra rd rs1 rs2
    else if func3 = 6 ∧ func7 = 0x00 then .Or rd rs1 rs2
    else if func3 = 6 ∧ func7 = 0x01 then .Rem rd rs1 rs2
    else if func3 = 7 ∧ func7 = 0x00 then .And rd rs1 rs2
    else .Unknown raw
  else if opcode = 0x3B then
    if func3 = 0 ∧ func7 = 0x00 then .Addw rd rs1 rs2
    else if func3 = 0 ∧ func7 = 0x20 then .Subw rd rs1 rs2
    else if func3 = 0 ∧ func7 = 0x01 then .Mulw rd rs1 rs2
    else if func3 = 1 ∧ func7 = 0x00 then .Sllw rd rs1 rs2
    else if func3 = 5 ∧ func7 = 0x00 then .Srlw rd rs1 rs2
    else if func3 = 5 ∧ func7 = 0x20 then .Sraw rd rs1 rs2
    else if func3 = 4 ∧ func7 = 0x01 then .Divw rd rs1 rs2
    else if func3 = 6 ∧ func7 = 0x01 then .Remw rd rs1 rs2
    else .Unknown raw
  else .Unknown raw

/-- `InstCode::parse_normal_i` (src/inst.rs).  The source performs the
shift-immediate and system-immediate tests on the sign-extended `i16`
immediate; all the tested masks and compared constants live in the low 12
bits, where the `i16` agrees with the raw 12-bit field `fld`, so the
embedding tests `fld` directly.  The trailing `unreachable!()` is dead at
the call site and modeled as `Unknown raw`. -/
def InstCode.parse_normal_i (raw : Nat) : InstCode :=
  let opcode := raw &&& 0b1111111
  let rd := RegID.decode ((raw >>> 7) &&& 0b11111)
  let func3 := (raw >>> 12) &&& 0b111
  let rs1 := RegID.decode ((raw >>> 15) &&& 0b11111)
  let fld := raw >>> 20
  let imm := sign_extend16 fld 4
  let csr := fld
  if opcode = 0x03 then
    if func3 = 0 then .Lb rd rs1 imm
    else if func3 = 1 then .Lh rd rs1 imm
    else if func3 = 2 then .Lw rd rs1 imm
    else if func3 = 3 then .Ld rd rs1 imm
    else if func3 = 4 then .Lbu rd rs1 imm
    else if func3 = 5 then .Lhu rd rs1 imm
    else if func3 = 6 then .Lwu rd rs1 imm
    else .Unknown raw
  else if opcode = 0x13 then
    if func3 = 0 then .Addi rd rs1 imm
    else if func3 = 1 ∧ fld &&& 0b111110000000 = 0 then .Slli rd rs1 imm
    else if func3 = 2 then .Slti rd rs1 imm
    else if func3 = 3 then .Sltiu rd rs1 imm
    else if func3 = 4 then .Xori rd rs1 imm
    else if func3 = 5 ∧ fld &&& 0b111110000000 = 0 then .Srli rd rs1 imm
    else if func3 = 5 ∧ fld &&& 0b111110000000 = 0b010000000000 then .Srai rd rs1 imm
    else if func3 = 6 then .Ori rd rs1 imm
    else if func3 = 7 then .Andi rd rs1 imm
    else .Unknown raw
  else if opcode = 0x1B then
    if func3 = 0 then .Addiw rd rs1 imm
    else if func3 = 1 ∧ fld &&& 0b111111100000 = 0 then .Slliw rd rs1 imm
    else if func3 = 5 ∧ fld &&& 0b111111100000 = 0 then .Srliw rd rs1 imm
    else if func3 = 5 ∧ fld &&& 0b111111100000 = 0b010000000000 then .Sraiw rd rs1 imm
    else .Unknown raw
  else if opcode = 0x67 then
    if func3 = 0 then .Jalr rd rs1 imm else .Unknown raw
  else if opcode = 0x73 then
    if func3 = 0 then
      if fld = 0 then .Ecall
      else if fld = 1 then .Ebreak
      else if fld = 2 then .Uret
      else if fld = 0x102 then .Sret
      else if fld = 0x302 then .Mret
      else if fld = 0x105 then .Wfi
      else if fld &&& 0b111111100000 = 0b000100100000 then
        .SfenceVma rs1 (RegID.decode ((raw >>> 20) &&& 0b11111))
      else .Unknown raw
    else if func3 = 1 then .Csrrw rd rs1 csr
    else if func3 = 2 then .Csrrs rd rs1 csr
    else if func3 = 3 then .Csrrc rd rs1 csr
    else if func3 = 5 then .Csrrwi rd csr ((raw >>> 15) &&& 0b11111)
    else if func3 = 6 then .Csrrsi rd csr ((raw >>> 15) &&& 0b11111)
    else if func3 = 7 then .Csrrci rd csr ((raw >>> 15) &&& 0b11111)
    else .Unknown raw
  else .Unknown raw

/-- `InstCode::parse_normal_s` (src/inst.rs); the dead `unreachable!()` is
modeled as `Unknown raw`. -/
def InstCode.parse_normal_s (raw : Nat) : InstCode :=
  let opcode := raw &&& 0b1111111
  let func3 := (raw >>> 12) &&& 0b111
  let rs1 := RegID.decode ((raw >>> 15) &&& 0b11111)
  let rs2 := RegID.decode ((raw >>> 20) &&& 0b11111)
  let imm1 := (raw >>> 7) &&& 0b11111
  let imm2 := (raw >>> 25) &&& 0b1111111
  let imm := sign_extend16 ((imm2 <<< 5) + imm1) 4
  if opcode = 0x23 then
    if func3 = 0 then .Sb rs1 rs2 imm
    else if func3 = 1 then .Sh rs1 rs2 imm
    else if func3 = 2 then .Sw rs1 rs2 imm
    else if func3 = 3 then .Sd rs1 rs2 imm
    else .Unknown raw
  else .Unknown raw

/-- `InstCode::parse_normal_sb` (src/inst.rs). -/
def InstCode.parse_normal_sb (raw : Nat) : InstCode :=
  let opcode := raw &&& 0b1111111
  let func3 := (raw >>> 12) &&& 0b111
  let rs1 := RegID.decode ((raw >>> 15) &&& 0b11111)
  let rs2 := RegID.decode ((raw >>> 20) &&& 0b11111)
  let imm1 := (raw >>> 8) &&& 0b1111
  let imm2 := (raw >>> 25) &&& 0b111111
  let imm3 := (raw >>> 7) &&& 0b1
  let imm4 := (raw >>> 31) % 2 ^ 16
  let imm := sign_extend16 ((imm4 <<< 12) + (imm3 <<< 11) + (imm2 <<< 5) + (imm1 <<< 1)) 3
  if opcode = 0x63 then
    if func3 = 0 then .Beq rs1 rs2 imm
    else if func3 = 1 then .Bne rs1 rs2 imm
    else if func3 = 4 then .Blt rs1 rs2 imm
    else if func3 = 5 then .Bge rs1 rs2 imm
    else if func3 = 6 then .Bltu rs1 rs2 imm
    else if func3 = 7 then .Bgeu rs1 rs2 imm
    else .Unknown raw
  else .Unknown raw

/-- `InstCode::parse_normal_u` (src/inst.rs): the masked upper immediate is
reinterpreted as `i32`. -/
def InstCode.parse_normal_u (raw : Nat) : InstCode :=
  let opcode := raw &&& 0b1111111
  let rd := RegID.decode ((raw >>> 7) &&& 0b11111)
  let imm := toSigned 32 (raw &&& 0xFFFFF000)
  if opcode = 0x17 then .Auipc rd imm
  else if opcode = 0x37 then .Lui rd imm
  else .Unknown raw

/-- `InstCode::parse_normal_uj` (src/inst.rs). -/
def InstCode.parse_normal_uj (raw : Nat) : InstCode :=
  let opcode := raw &&& 0b1111111
  let rd := RegID.decode ((raw >>> 7) &&& 0b11111)
  let imm1 := (raw >>> 21) &&& 0b1111111111
  let imm2 := (raw >>> 20) &&& 0b1
  let imm3 := (raw >>> 12) &&& 0b11111111
  let imm4 := (raw >>> 31) &&& 0b1
  let imm := sign_extend32 ((imm4 <<< 20) + (imm3 <<< 12) + (imm2 <<< 11) + (imm1 <<< 1)) 11
  if opcode = 0x6f then .Jal rd imm
  else .Unknown raw

/-- `InstCode::parse` (src/inst.rs lines 113-145): reject prolonged (48-bit
or longer) encodings, dispatch compressed encodings, else assemble the
32-bit word `raw = (second << 16) | first` and dispatch on its opcode.  The
`u16` inputs are reduced mod `2^16` where the Rust types guarantee the
range. -/
def InstCode.parse (first second : Nat) : InstCode × Nat :=
  if (first &&& 0b11111) = 0b11111 then (InstCode.IllegalProlonged, 32)
  else if (first &&& 0b11) ≠ 0b11 then (InstCode.parse_compressed (first &&& 0xFFFF), 16)
  else
    let raw := ((second % 2 ^ 16) <<< 16) + first % 2 ^ 16
    let opcode := raw &&& 0b1111111
    if opcode = 0x33 ∨ opcode = 0x3B then (InstCode.parse_normal_r raw, 32)
    else if opcode = 0x3 ∨ opcode = 0x13 ∨ opcode = 0x1B ∨ opcode = 0x67 ∨ opcode = 0x73 then
      (InstCode.parse_normal_i raw, 32)
    else if opcode = 0x23 then (InstCode.parse_normal_s raw, 32)
    else if opcode = 0x63 then (InstCode.parse_normal_sb raw, 32)
    else if opcode = 0x17 ∨ opcode = 0x37 then (InstCode.parse_normal_u raw, 32)
    else if opcode = 0x6f then (InstCode.parse_normal_uj raw, 32)
    else if opcode = 0x0f then
      let func3 := (raw >>> 12) &&& 0b111
      let succ := (raw >>> 20) &&& 0b1111
      let pred := (raw >>> 24) &&& 0b1111
      if func3 = 0 then (InstCode.Fence pred succ, 32)
      else if func3 = 1 ∧ pred = 0 ∧ succ = 0 then (InstCode.FenceI, 32)
      else (InstCode.Unknown raw, 32)
    else (InstCode.Unknown raw, 32)

/-- C5 counterexample: the `c.nop` encoding `0x0001` (low two bits ≠ 11)
does not expand to `addi x0, x0, 0` — the parser returns `UnknownC`. -/
theorem c5_compressed_counterexample :
    InstCode.parse 1 0 = (InstCode.UnknownC 1, 16)
    ∧ (InstCode.parse 1 0).1 ≠ InstCode.Addi RegID.X0 RegID.X0 0 := by
  refine ⟨rfl, fun h => ?_⟩
  exact InstCode.noConfusion h

/-- C5 (amended): compressed decoding is unimplemented; every 16-bit
encoding whose low two bits are not `11` parses to `(UnknownC, 16)`. -/
theorem c5_compressed_all_unknown (first second : Nat) (h16 : first < 2 ^ 16)
    (hc : first &&& 0b11 ≠ 0b11) :
    InstCode.parse first second = (InstCode.UnknownC first, 16) := by
  have h3 : first &&& 3 = first % 4 := Nat.and_pow_two_sub_one_eq_mod first 2
  have h31 : first &&& 31 = first % 32 := Nat.and_pow_two_sub_one_eq_mod first 5
  have hFFFF : first &&& 0xFFFF = first := by
    have := Nat.and_pow_two_sub_one_eq_mod first 16
    rw [this]
    exact Nat.mod_eq_of_lt h16
  rw [h3] at hc
  unfold InstCode.parse
  rw [if_neg (by rw [h31]; omega)]
  rw [if_pos (by rw [h3]; exact hc)]
  rw [InstCode.parse_compressed, hFFFF]

/-- Witness for the amended C5 at the compressed encoding `0x4501`. -/
theorem c5_compressed_all_unknown_witness :
    InstCode.parse 0x4501 0 = (InstCode.UnknownC 0x4501, 16) :=
  c5_compressed_all_unknown 0x4501 0 (by decide) (by decide)

/-- An in-flight instruction, src/inst.rs `struct Inst`. -/
structure Inst where
  code : InstCode
  pc : Nat
  next_pc : Nat
  stage : Stage
  progress : Nat
  val1 : Nat
  val2 : Nat
  val_e : Nat
  val_m : Nat

/-- `Inst::new`. -/
def Inst.new : Inst :=
  { code := .Unknown 0, pc := 0, next_pc := 0, stage := .Fetch, progress := 0,
    val1 := 0, val2 := 0, val_e := 0, val_m := 0 }

/-- Result of one `advance` call.  `ok`/`err` mirror `Ok(self)`/`Err(pc)` and
carry the (possibly mutated) program; `panic` models the Rust panics
(`unreachable!`, unlock underflow, slice-length mismatch). -/
inductive AdvResult where
  | ok (inst : Inst) (prog : Program)
  | err (next_pc : Nat) (prog : Program)
  | panic

/-- The low `w` bytes of `v`, little-endian: `v.to_le_bytes()[..w]`. -/
def leBytes (v w : Nat) : List Nat :=
  (List.range w).map fun k => (v >>> (8 * k)) % 256

/-- `Inst::advance` (src/inst.rs lines 507-1419): progress one instruction by
one cycle against the program state. -/
def Inst.advance (i : Inst) (p : Program) : AdvResult :=
  match i.stage with
  | .Fetch =>
    if p.program_counter = HLT_ADDR then .err HLT_ADDR p
    else
      match p.mem_load p.program_counter 4 true with
      | none => .err HLT_ADDR p
      | some (data, rem) =>
        if rem ≠ 0 then .err HLT_ADDR p
        else
          match data with
          | [b0, b1, b2, b3] =>
            let raw := b0 + (b1 <<< 8) + (b2 <<< 16) + (b3 <<< 24)
            let pr := InstCode.parse (raw &&& 0xFFFF) (raw >>> 16)
            let i1 := { i with code := pr.1, pc := p.program_counter,
                               next_pc := p.program_counter + pr.2 / 8 }
            match pr.1 with
            | .Unknown _ => .err HLT_ADDR p
            | .IllegalCf _ => .err HLT_ADDR p
            | .UnknownC _ => .err HLT_ADDR p
            | .IllegalProlonged => .err HLT_ADDR p
            | .Fence _ _ | .FenceI | .Csrrw _ _ _ | .Csrrs _ _ _ | .Csrrc _ _ _
            | .Csrrwi _ _ _ | .Csrrsi _ _ _ | .Csrrci _ _ _ | .Ebreak | .Uret
            | .Sret | .Mret | .Wfi | .SfenceVma _ _ => .err HLT_ADDR p
            | _ => .ok { i1 with stage := .Decode } p
          | _ => .panic
  | .Decode =>
    match i.code with
    | .Add rd rs1 rs2 | .Mul rd rs1 rs2 | .Sub rd rs1 rs2 | .Sll rd rs1 rs2
    | .Mulh rd rs1 rs2 | .Slt rd rs1 rs2 | .Sltu rd rs1 rs2 | .Xor rd rs1 rs2
    | .Div rd rs1 rs2 | .Srl rd rs1 rs2 | .Sra rd rs1 rs2 | .Or rd rs1 rs2
    | .Rem rd rs1 rs2 | .And rd rs1 rs2 | .Addw rd rs1 rs2 | .Subw rd rs1 rs2
    | .Mulw rd rs1 rs2 | .Divw rd rs1 rs2 | .Sllw rd rs1 rs2 | .Srlw rd rs1 rs2
    | .Sraw rd rs1 rs2 | .Remw rd rs1 rs2 =>
      match p.registers.read rs1 with
      | none => .ok i p
      | some v1 =>
        match p.registers.read rs2 with
        | none => .ok i p
        | some v2 =>
          .ok { i with val1 := v1, val2 := v2, stage := .Execute }
             { p with registers := p.registers.lock rd }
    | .Lb rd rs1 _ | .Lbu rd rs1 _ | .Lh rd rs1 _ | .Lhu rd rs1 _
    | .Lw rd rs1 _ | .Lwu rd rs1 _ | .Ld rd rs1 _ | .Addi rd rs1 _
    | .Slli rd rs1 _ | .Slliw rd rs1 _ | .Slti rd rs1 _ | .Sltiu rd rs1 _
    | .Xori rd rs1 _ | .Srli rd rs1 _ | .Srliw rd rs1 _ | .Srai rd rs1 _
    | .Sraiw rd rs1 _ | .Ori rd rs1 _ | .Andi rd rs1 _ | .Addiw rd rs1 _
    | .Jalr rd rs1 _ =>
      match p.registers.read rs1 with
      | none => .ok i p
      | some v1 =>
        .ok { i with val1 := v1, stage := .Execute }
           { p with registers := p.registers.lock rd }
    | .Ecall =>
      match p.registers.read RegID.X10 with
      | none => .ok i p
      | some v1 =>
        match p.registers.read RegID.X11 with
        | none => .ok i p
        | some v2 =>
          match p.registers.read RegID.X17 with
          | none => .ok i p
          | some ve =>
            .ok { i with val1 := v1, val2 := v2, val_e := ve, stage := .Execute } p
    | .Sb rs1 rs2 _ | .Sh rs1 rs2 _ | .Sw rs1 rs2 _ | .Sd rs1 rs2 _ =>
      match p.registers.read rs1 with
      | none => .ok i p
      | some v1 =>
        match p.registers.read rs2 with
        | none => .ok i p
        | some v2 =>
          .ok { i with val1 := v1, val2 := v2, stage := .Execute } p
    | .Beq rs1 rs2 _ | .Bne rs1 rs2 _ | .Blt rs1 rs2 _ | .Bge rs1 rs2 _
    | .Bltu rs1 rs2 _ | .Bgeu rs1 rs2 _ =>
      match p.registers.read rs1 with
      | none => .ok i p
      | some v1 =>
        match p.registers.read rs2 with
        | none => .ok i p
        | some v2 =>
          .ok { i with val1 := v1, val2 := v2, stage := .Execute } p
    | .Auipc rd _ | .Lui rd _ | .Jal rd _ =>
      .ok { i with stage := .Execute } { p with registers := p.registers.lock rd }
    | _ => .panic
  | .Execute =>
    match i.code with
    | .Add rd _ _ =>
      let ve := (i.val1 + i.val2) % 2 ^ 64
      .ok { i with val_e := ve, stage := .Memory }
         { p with registers := p.registers.forward rd ve .Memory }
    | .Mul rd _ _ =>
      if i.progress < 1 then .ok { i with progress := i.progress + 1 } p
      else
        let ve := toU64 (toI64 i.val1 * toI64 i.val2)
        .ok { i with val_e := ve, stage := .Memory }
           { p with registers := p.registers.forward rd ve .Memory }
    | .Sub rd _ _ =>
      let ve := toU64 ((i.val1 : Int) - (i.val2 : Int))
      .ok { i with val_e := ve, stage := .Memory }
         { p with registers := p.registers.forward rd ve .Memory }
    | .Sll rd _ _ =>
      let ve := wshl64 i.val1 (i.val2 &&& 0b111111)
      .ok { i with val_e := ve, stage := .Memory }
         { p with registers := p.registers.forward rd ve .Memory }
    | .Mulh rd _ _ =>
      if i.progress < 1 then .ok { i with progress := i.progress + 1 } p
      else
        let ve := toU64 (Int.fdiv (toI64 i.val1 * toI64 i.val2) (2 ^ 64))
        .ok { i with val_e := ve, stage := .Memory }
           { p with registers := p.registers.forward rd ve .Memory }
    | .Slt rd _ _ =>
      let ve := if toI64 i.val1 < toI64 i.val2 then 1 else 0
      .ok { i with val_e := ve, stage := .Memory }
         { p with registers := p.registers.forward rd ve .Memory }
    | .Sltu rd _ _ =>
      let ve := if i.val1 < i.val2 then 1 else 0
      .ok { i with val_e := ve, stage := .Memory }
         { p with registers := p.registers.forward rd ve .Memory }
    | .Xor rd _ _ =>
      let ve := i.val1 ^^^ i.val2
      .ok { i with val_e := ve, stage := .Memory }
         { p with registers := p.registers.forward rd ve .Memory }
    | .Div rd _ _ =>
      if i.val2 = 0 then
        match p.registers.unlock rd with
        | none => .panic
        | some rf => .err HLT_ADDR { p with registers := rf }
      else if i.progress < 39 then .ok { i with progress := i.progress + 1 } p
      else
        let ve := toU64 (Int.tdiv (toI64 i.val1) (toI64 i.val2))
        .ok { i with val_e := ve, stage := .Memory }
           { p with registers := p.registers.forward rd ve .Memory }
    | .Srl rd _ _ =>
      let ve := wshr64 i.val1 (i.val2 &&& 0b111111)
      .ok { i with val_e := ve, stage := .Memory }
         { p with registers := p.registers.forward rd ve .Memory }
    | .Sra rd _ _ =>
      let ve := sashr64 i.val1 (i.val2 &&& 0b111111)
      .ok { i with val_e := ve, stage := .Memory }
         { p with registers := p.registers.forward rd ve .Memory }
    | .Or rd _ _ =>
      let ve := i.val1 ||| i.val2
      .ok { i with val_e := ve, stage := .Memory }
         { p with registers := p.registers.forward rd ve .Memory }
    | .Rem rd _ _ =>
      if i.val2 = 0 then
        match p.registers.unlock rd with
        | none => .panic
        | some rf => .err HLT_ADDR { p with registers := rf }
      else if i.progress < 39 then .ok { i with progress := i.progress + 1 } p
      else
        let ve := toU64 (Int.tmod (toI64 i.val1) (toI64 i.val2))
        .ok { i with val_e := ve, stage := .Memory }
           { p with registers := p.registers.forward rd ve .Memory }
    | .And rd _ _ =>
      let ve := i.val1 &&& i.val2
      .ok { i with val_e := ve, stage := .Memory }
         { p with registers := p.registers.forward rd ve .Memory }
    | .Addw rd _ _ =>
      let ve := sext32u (toUnsigned 32 (toI32 i.val1 + toI32 i.val2))
      .ok { i with val_e := ve, stage := .Memory }
         { p with registers := p.registers.forward rd ve .Memory }
    | .Subw rd _ _ =>
      let ve := sext32u (toUnsigned 32 (toI32 i.val1 - toI32 i.val2))
      .ok { i with val_e := ve, stage := .Memory }
         { p with registers := p.registers.forward rd ve .Memory }
    | .Mulw rd _ _ =>
      let ve := sext32u (toUnsigned 32 (toI32 i.val1 * toI32 i.val2))
      .ok { i with val_e := ve, stage := .Memory }
         { p with registers := p.registers.forward rd ve .Memory }
    | .Divw rd _ _ =>
      if i.val2 = 0 then
        match p.registers.unlock rd with
        | none => .panic
        | some rf => .err HLT_ADDR { p with registers := rf }
      else if i.progress < 39 then .ok { i with progress := i.progress + 1 } p
      else
        let ve := sext32u (toUnsigned 32 (Int.tdiv (toI32 i.val1) (toI32 i.val2)))
        .ok { i with val_e := ve, stage := .Memory }
           { p with registers := p.registers.forward rd ve .Memory }
    | .Sllw rd _ _ =>
      let ve := sext32u (wshl32 i.val1 (i.val2 &&& 0b11111))
      .ok { i with val_e := ve, stage := .Memory }
         { p with registers := p.registers.forward rd ve .Memory }
    | .Srlw rd _ _ =>
      -- the source computes `u32::wrapping_shl(self.val1 as u32, ..)`:
      -- a LEFT shift (src/inst.rs line 927)
      let ve := sext32u (wshl32 i.val1 (i.val2 &&& 0b11111))
      .ok { i with val_e := ve, stage := .Memory }
         { p with registers := p.registers.forward rd ve .Memory }
    | .Sraw rd _ _ =>
      -- the source computes `i32::wrapping_shl(self.val1 as i32, ..)`:
      -- a LEFT shift (src/inst.rs line 934)
      let ve := sext32u (wshl32 i.val1 (i.val2 &&& 0b11111))
      .ok { i with val_e := ve, stage := .Memory }
         { p with registers := p.registers.forward rd ve .Memory }
    | .Remw rd _ _ =>
      if i.val2 = 0 then
        match p.registers.unlock rd with
        | none => .panic
        | some rf => .err HLT_ADDR { p with registers := rf }
      else if i.progress < 39 then .ok { i with progress := i.progress + 1 } p
      else
        let ve := sext32u (toUnsigned 32 (Int.tmod (toI32 i.val1) (toI32 i.val2)))
        .ok { i with val_e := ve, stage := .Memory }
           { p with registers := p.registers.forward rd ve .Memory }
    | .Lb rd _ imm | .Lbu rd _ imm | .Lh rd _ imm | .Lhu rd _ imm
    | .Lw rd _ imm | .Lwu rd _ imm | .Ld rd _ imm | .Sb rd _ imm
    | .Sh rd _ imm | .Sw rd _ imm | .Sd rd _ imm =>
      .ok { i with val_e := toU64 (toI64 i.val1 + imm), stage := .Memory } p
    | .Addi rd _ imm =>
      let ve := toU64 (toI64 i.val1 + imm)
      .ok { i with val_e := ve, stage := .Memory }
         { p with registers := p.registers.forward rd ve .Memory }
    | .Slli rd _ imm =>
      let ve := wshl64 i.val1 (toUnsigned 32 imm)
      .ok { i with val_e := ve, stage := .Memory }
         { p with registers := p.registers.forward rd ve .Memory }
    | .Slliw rd _ imm =>
      let ve := sext32u (wshl32 i.val1 (toUnsigned 32 imm))
      .ok { i with val_e := ve, stage := .Memory }
         { p with registers := p.registers.forward rd ve .Memory }
    | .Slti rd _ imm =>
      let ve := if toI64 i.val1 < imm then 1 else 0
      .ok { i with val_e := ve, stage := .Memory }
         { p with registers := p.registers.forward rd ve .Memory }
    | .Sltiu rd _ imm =>
      let ve := if i.val1 < toU64 imm then 1 else 0
      .ok { i with val_e := ve, stage := .Memory }
         { p with registers := p.registers.forward rd ve .Memory }
    | .Xori rd _ imm =>
      let ve := i.val1 ^^^ toU64 imm
      .ok { i with val_e := ve, stage := .Memory }
         { p with registers := p.registers.forward rd ve .Memory }
    | .Srli rd _ imm =>
      let ve := wshr64 i.val1 (toUnsigned 32 imm)
      .ok { i with val_e := ve, stage := .Memory }
         { p with registers := p.registers.forward rd ve .Memory }
    | .Srliw rd _ imm =>
      let ve := sext32u (wshr32 i.val1 (toUnsigned 32 imm))
      .ok { i with val_e := ve, stage := .Memory }
         { p with registers := p.registers.forward rd ve .Memory }
    | .Srai rd _ imm =>
      let ve := sashr64 i.val1 (toUnsigned 32 imm)
      .ok { i with val_e := ve, stage := .Memory }
         { p with registers := p.registers.forward rd ve .Memory }
    | .Sraiw rd _ imm =>
      let ve := sext32u (sashr32 i.val1 (toUnsigned 32 imm))
      .ok { i with val_e := ve, stage := .Memory }
         { p with registers := p.registers.forward rd ve .Memory }
    | .Ori rd _ imm =>
      let ve := i.val1 ||| toU64 imm
      .ok { i with val_e := ve, stage := .Memory }
         { p with registers := p.registers.forward rd ve .Memory }
    | .Andi rd _ imm =>
      let ve := i.val1 &&& toU64 imm
      .ok { i with val_e := ve, stage := .Memory }
         { p with registers := p.registers.forward rd ve .Memory }
    | .Addiw rd _ imm =>
      let ve := sext32u (toUnsigned 32 (toI32 i.val1 + imm))
      .ok { i with val_e := ve, stage := .Memory }
         { p with registers := p.registers.forward rd ve .Memory }
    | .Jalr rd _ imm =>
      let ve := i.pc + 4
      .ok { i with val_e := ve,
                   next_pc := toU64 (toI64 i.val1 + imm) &&& 0xFFFFFFFFFFFFFFFE,
                   stage := .Memory }
         { p with registers := p.registers.forward rd ve .Memory }
    | .Ecall =>
      if i.val_e = 57 ∨ i.val_e = 80 ∨ i.val_e = 62 ∨ i.val_e = 214
          ∨ i.val_e = 64 ∨ i.val_e = 63 ∨ i.val_e = 93 then .err HLT_ADDR p
      else if i.val1 = 10 then .err HLT_ADDR p
      else if i.val1 = 1 then .ok { i with stage := .Memory } p
      else .err HLT_ADDR p
    | .Beq _ _ ofs =>
      if i.val1 = i.val2 then .err (toU64 (toI64 i.pc + ofs)) p
      else .ok { i with stage := .Memory } p
    | .Bne _ _ ofs =>
      if i.val1 ≠ i.val2 then .err (toU64 (toI64 i.pc + ofs)) p
      else .ok { i with stage := .Memory } p
    | .Blt _ _ ofs =>
      if toI64 i.val1 < toI64 i.val2 then .err (toU64 (toI64 i.pc + ofs)) p
      else .ok { i with stage := .Memory } p
    | .Bltu _ _ ofs =>
      if i.val1 < i.val2 then .err (toU64 (toI64 i.pc + ofs)) p
      else .ok { i with stage := .Memory } p
    | .Bge _ _ ofs =>
      if toI64 i.val2 ≤ toI64 i.val1 then .err (toU64 (toI64 i.pc + ofs)) p
      else .ok { i with stage := .Memory } p
    | .Bgeu _ _ ofs =>
      if i.val2 ≤ i.val1 then .err (toU64 (toI64 i.pc + ofs)) p
      else .ok { i with stage := .Memory } p
    | .Auipc rd imm =>
      let ve := toU64 (toI64 i.pc + imm)
      .ok { i with val_e := ve, stage := .Memory }
         { p with registers := p.registers.forward rd ve .Memory }
    | .Lui rd imm =>
      let ve := toU64 imm
      .ok { i with val_e := ve, stage := .Memory }
         { p with registers := p.registers.forward rd ve .Memory }
    | .Jal rd imm =>
      let ve := i.pc + 4
      .ok { i with val_e := ve, next_pc := toU64 (toI64 i.pc + imm), stage := .Memory }
         { p with registers := p.registers.forward rd ve .Memory }
    | _ => .panic
  | .Memory =>
    match i.code with
    | .Lb rd _ _ | .Lbu rd _ _ =>
      match p.mem_load i.val_e 1 false with
      | none =>
        match p.registers.unlock rd with
        | none => .panic
        | some rf => .err HLT_ADDR { p with registers := rf }
      | some (data, rem) =>
        if rem ≠ 0 then
          match p.registers.unlock rd with
          | none => .panic
          | some rf => .err HLT_ADDR { p with registers := rf }
        else
          match data with
          | [b0] =>
            let vm := match i.code with
                      | .Lb _ _ _ => toU64 (toSigned 8 b0)
                      | _ => b0
            .ok { i with val_m := vm, stage := .Writeback }
               { p with registers := p.registers.forward rd vm .Writeback }
          | _ => .panic
    | .Lh rd _ _ | .Lhu rd _ _ =>
      match p.mem_load i.val_e 2 false with
      | none =>
        match p.registers.unlock rd with
        | none => .panic
        | some rf => .err HLT_ADDR { p with registers := rf }
      | some (data, rem) =>
        if rem ≠ 0 then
          match p.registers.unlock rd with
          | none => .panic
          | some rf => .err HLT_ADDR { p with registers := rf }
        else
          match data with
          | [b0, b1] =>
            let vm := match i.code with
                      | .Lh _ _ _ => toU64 (toSigned 16 (b0 + (b1 <<< 8)))
                      | _ => b0 + (b1 <<< 8)
            .ok { i with val_m := vm, stage := .Writeback }
               { p with registers := p.registers.forward rd vm .Writeback }
          | _ => .panic
    | .Lw rd _ _ | .Lwu rd _ _ =>
      match p.mem_load i.val_e 4 false with
      | none =>
        match p.registers.unlock rd with
        | none => .panic
        | some rf => .err HLT_ADDR { p with registers := rf }
      | some (data, rem) =>
        if rem ≠ 0 then
          match p.registers.unlock rd with
          | none => .panic
          | some rf => .err HLT_ADDR { p with registers := rf }
        else
          match data with
          | [b0, b1, b2, b3] =>
            let w := b0 + (b1 <<< 8) + (b2 <<< 16) + (b3 <<< 24)
            let vm := match i.code with
                      | .Lw _ _ _ => toU64 (toSigned 32 w)
                      | _ => w
            .ok { i with val_m := vm, stage := .Writeback }
               { p with registers := p.registers.forward rd vm .Writeback }
          | _ => .panic
    | .Ld rd _ _ =>
      match p.mem_load i.val_e 8 false with
      | none =>
        match p.registers.unlock rd with
        | none => .panic
        | some rf => .err HLT_ADDR { p with registers := rf }
      | some (data, rem) =>
        if rem ≠ 0 then
          match p.registers.unlock rd with
          | none => .panic
          | some rf => .err HLT_ADDR { p with registers := rf }
        else
          match data with
          | [b0, b1, b2, b3, b4, b5, b6, b7] =>
            let vm := b0 + (b1 <<< 8) + (b2 <<< 16) + (b3 <<< 24) + (b4 <<< 32)
                      + (b5 <<< 40) + (b6 <<< 48) + (b7 <<< 56)
            .ok { i with val_m := vm, stage := .Writeback }
               { p with registers := p.registers.forward rd vm .Writeback }
          | _ => .panic
    | .Sb _ _ _ =>
      let r := p.mem_store i.val_e (leBytes i.val2 1)
      if r.1 = false then .err HLT_ADDR r.2
      else .ok { i with stage := .Writeback } r.2
    | .Sh _ _ _ =>
      let r := p.mem_store i.val_e (leBytes i.val2 2)
      if r.1 = false then .err HLT_ADDR r.2
      else .ok { i with stage := .Writeback } r.2
    | .Sw _ _ _ =>
      let r := p.mem_store i.val_e (leBytes i.val2 4)
      if r.1 = false then .err HLT_ADDR r.2
      else .ok { i with stage := .Writeback } r.2
    | .Sd _ _ _ =>
      let r := p.mem_store i.val_e (leBytes i.val2 8)
      if r.1 = false then .err HLT_ADDR r.2
      else .ok { i with stage := .Writeback } r.2
    | _ => .ok { i with stage := .Writeback } p
  | .Writeback =>
    match i.code with
    | .Add rd _ _ | .Sub rd _ _ | .Mul rd _ _ | .Sll rd _ _
    | .Mulh rd _ _ | .Slt rd _ _ | .Sltu rd _ _ | .Xor rd _ _
    | .Div rd _ _ | .Srl rd _ _ | .Sra rd _ _ | .Or rd _ _
    | .Rem rd _ _ | .And rd _ _ | .Addw rd _ _ | .Subw rd _ _
    | .Mulw rd _ _ | .Divw rd _ _ | .Sllw rd _ _ | .Srlw rd _ _
    | .Sraw rd _ _ | .Remw rd _ _ | .Addi rd _ _ | .Slli rd _ _
    | .Slliw rd _ _ | .Slti rd _ _ | .Sltiu rd _ _ | .Xori rd _ _
    | .Srli rd _ _ | .Srliw rd _ _ | .Srai rd _ _ | .Sraiw rd _ _
    | .Ori rd _ _ | .Andi rd _ _ | .Addiw rd _ _ | .Jalr rd _ _
    | .Jal rd _ | .Auipc rd _ | .Lui rd _ =>
      match (p.registers.write rd i.val_e).unlock rd with
      | none => .panic
      | some rf => .err i.next_pc { p with registers := rf }
    | .Lb rd _ _ | .Lbu rd _ _ | .Lh rd _ _ | .Lhu rd _ _
    | .Lw rd _ _ | .Lwu rd _ _ | .Ld rd _ _ =>
      match (p.registers.write rd i.val_m).unlock rd with
      | none => .panic
      | some rf => .err i.next_pc { p with registers := rf }
    | _ => .err i.next_pc p

/-- Execute-stage result value of an `advance` outcome, when in flight. -/
def AdvResult.valEOf : AdvResult → Option Nat
  | .ok i _ => some i.val_e
  | _ => none

/-- Whether an `advance` outcome is a retirement (`Err`). -/
def AdvResult.isErr : AdvResult → Bool
  | .err _ _ => true
  | _ => false

/-- Srlw instruction in Execute with operands v1 = 2, v2 = 1. -/
def iSrlw : Inst :=
  { Inst.new with code := .Srlw RegID.X5 RegID.X6 RegID.X7, stage := .Execute,
                  val1 := 2, val2 := 1 }

/-- Sraw instruction in Execute with operands v1 = 0x80000000, v2 = 1. -/
def iSraw : Inst :=
  { Inst.new with code := .Sraw RegID.X5 RegID.X6 RegID.X7, stage := .Execute,
                  val1 := 0x80000000, val2 := 1 }

/-- C1 evaluation: executing `Srlw` with v1 = 2, v2 = 1 produces ve = 4 (a
left shift), not the logical right shift 1 the claim requires; executing
`Sraw` with v1 = 0x80000000, v2 = 1 produces ve = 0, not the arithmetic
right shift 0xFFFFFFFFC0000000 the claim requires.  The source uses
`wrapping_shl` (left shifts) for both (src/inst.rs lines 927 and 934). -/
theorem c1_srlw_sraw_left_shift_eval :
    (iSrlw.advance pRW).valEOf = some 4 ∧ (4 : Nat) ≠ 1
    ∧ (iSraw.advance pRW).valEOf = some 0 ∧ (0 : Nat) ≠ 0xFFFFFFFFC0000000 := by
  refine ⟨by rfl, by decide, by rfl, by decide⟩

/-- The destination register of `Div`, `Divw`, `Rem`, `Remw`. -/
def divLikeRd : InstCode → Option RegID
  | .Div rd _ _ => some rd
  | .Divw rd _ _ => some rd
  | .Rem rd _ _ => some rd
  | .Remw rd _ _ => some rd
  | _ => none

/-- C3: a `Div`/`Divw`/`Rem`/`Remw` instruction in Execute whose divisor
operand `v2` is zero retires with `Err(HLT_ADDR)`, decrements the
write-pending counter of `rd` by exactly one, and leaves the stored value of
`rd` (and every other register) unchanged. -/
theorem c3_div_by_zero_unlocks (i : Inst) (p : Program) (rd : RegID) (c : Nat)
    (hst : i.stage = .Execute) (hc : divLikeRd i.code = some rd)
    (hv : i.val2 = 0) (hcnt : (p.registers.registers rd).write_cnt = c + 1) :
    (i.advance p).isErr = true
    ∧ (∀ pc' p', i.advance p = .err pc' p' →
        pc' = HLT_ADDR
        ∧ (p'.registers.registers rd).write_cnt = c
        ∧ (p'.registers.registers rd).value = (p.registers.registers rd).value
        ∧ ∀ j, j ≠ rd → p'.registers.registers j = p.registers.registers j) := by
  obtain ⟨code, ipc, inpc, istage, iprg, iv1, iv2, ive, ivm⟩ := i
  dsimp only at hst hc hv ⊢
  subst hst
  subst hv
  cases code <;> simp only [divLikeRd] at hc <;> cases hc
  all_goals (
    have hun : RegisterFile.unlock p.registers rd =
        some { registers := fun j => if j = rd then
                 { p.registers.registers rd with write_cnt := c }
               else p.registers.registers j } := by
      rw [RegisterFile.unlock, Register.unlock, hcnt]
    constructor
    · simp only [Inst.advance, hun, AdvResult.isErr, if_pos rfl, if_true]
    · intro pc' p' h
      simp only [Inst.advance, hun, if_pos rfl, if_true] at h
      cases h
      refine ⟨rfl, ?_, ?_, ?_⟩
      · simp
      · simp
      · intro j hj
        simp [hj])

/-- Register file whose X7 has one pending write and value 42. -/
def rf3w : RegisterFile :=
  { registers := fun j =>
      { id := j
        value := if j = RegID.X7 then 42 else 0
        write_cnt := if j = RegID.X7 then 1 else 0
        forward_values := none
        enable_forwarding := false } }

/-- Program for the C3 witness. -/
def p3w : Program :=
  { entry_point := 0, program_counter := 0, registers := rf3w, vmas := [] }

/-- Div instruction in Execute with divisor v2 = 0. -/
def i3w : Inst :=
  { Inst.new with code := .Div RegID.X7 RegID.X5 RegID.X6, stage := .Execute,
                  val1 := 10, val2 := 0 }

/-- The mutated program produced by the C3 witness step. -/
def p3wPost : Program :=
  match i3w.advance p3w with
  | .err _ p => p
  | _ => p3w

/-- Witness for C3 at a concrete divide-by-zero. -/
theorem c3_div_by_zero_unlocks_witness :
    i3w.advance p3w = .err HLT_ADDR p3wPost
    ∧ (p3wPost.registers.registers RegID.X7).write_cnt = 0
    ∧ (p3wPost.registers.registers RegID.X7).value = 42 := by
  have h := c3_div_by_zero_unlocks i3w p3w RegID.X7 0 rfl rfl rfl rfl
  have heq : i3w.advance p3w = .err HLT_ADDR p3wPost := by rfl
  have h2 := h.2 HLT_ADDR p3wPost heq
  exact ⟨heq, h2.2.1, by rw [h2.2.2.1]; rfl⟩


/-- Program state carried by a non-panicking `advance` outcome. -/
def advProg : AdvResult → Option Program
  | .ok _ p => some p
  | .err _ p => some p
  | .panic => none

/-- Destination register locked by the Decode stage, read off from which
arms of the Decode match call `lock` (src/inst.rs lines 581-743). -/
def decodeLockReg : InstCode → Option RegID
  | .Add rd _ _ | .Mul rd _ _ | .Sub rd _ _ | .Sll rd _ _
  | .Mulh rd _ _ | .Slt rd _ _ | .Sltu rd _ _ | .Xor rd _ _
  | .Div rd _ _ | .Srl rd _ _ | .Sra rd _ _ | .Or rd _ _
  | .Rem rd _ _ | .And rd _ _ | .Addw rd _ _ | .Subw rd _ _
  | .Mulw rd _ _ | .Divw rd _ _ | .Sllw rd _ _ | .Srlw rd _ _
  | .Sraw rd _ _ | .Remw rd _ _ => some rd
  | .Lb rd _ _ | .Lbu rd _ _ | .Lh rd _ _ | .Lhu rd _ _
  | .Lw rd _ _ | .Lwu rd _ _ | .Ld rd _ _ | .Addi rd _ _
  | .Slli rd _ _ | .Slliw rd _ _ | .Slti rd _ _ | .Sltiu rd _ _
  | .Xori rd _ _ | .Srli rd _ _ | .Srliw rd _ _ | .Srai rd _ _
  | .Sraiw rd _ _ | .Ori rd _ _ | .Andi rd _ _ | .Addiw rd _ _
  | .Jalr rd _ _ => some rd
  | .Auipc rd _ | .Lui rd _ | .Jal rd _ => some rd
  | _ => none

/-- Forwarding never changes any write-pending counter. -/
theorem cnt_forward (rf : RegisterFile) (id : RegID) (v : Nat) (s : Stage) (j : RegID) :
    ((rf.forward id v s).registers j).write_cnt = (rf.registers j).write_cnt := by
  unfold RegisterFile.forward Register.forward
  by_cases hj : j = id
  · subst hj
    cases he : (rf.registers j).enable_forwarding <;> simp [he]
  · simp [hj]

/-- Writing a value never changes any write-pending counter. -/
theorem cnt_write (rf : RegisterFile) (id : RegID) (v : Nat) (j : RegID) :
    ((rf.write id v).registers j).write_cnt = (rf.registers j).write_cnt := by
  unfold RegisterFile.write Register.write
  by_cases hj : j = id
  · subst hj
    by_cases hx : (rf.registers j).id = RegID.X0 <;> simp [hx]
  · simp [hj]

/-- A successful unlock never increases any write-pending counter. -/
theorem cnt_unlock {rf rf' : RegisterFile} {id : RegID}
    (h : rf.unlock id = some rf') (j : RegID) :
    (rf'.registers j).write_cnt ≤ (rf.registers j).write_cnt := by
  cases hcnt : (rf.registers id).write_cnt with
  | zero => rw [RegisterFile.unlock, Register.unlock, hcnt] at h; cases h
  | succ n =>
    rw [RegisterFile.unlock, Register.unlock, hcnt] at h
    cases h
    by_cases hj : j = id
    · subst hj
      simp only [if_pos rfl]
      simp [hcnt]
    · simp [hj]

set_option maxHeartbeats 4000000 in
theorem c6_decode_lock_discipline (i : Inst) (p : Program) :
    (i.stage = .Decode →
      ∀ i' p', i.advance p = .ok i' p' →
        (i' = i ∧ p' = p) ∨
        (i'.stage = .Execute ∧
          match decodeLockReg i.code with
          | some rd =>
              (p'.registers.registers rd).write_cnt
                = (p.registers.registers rd).write_cnt + 1
              ∧ ∀ j, j ≠ rd → p'.registers.registers j = p.registers.registers j
          | none => ∀ j, p'.registers.registers j = p.registers.registers j))
    ∧ (i.stage ≠ .Decode →
        ∀ p', advProg (i.advance p) = some p' →
          ∀ j, (p'.registers.registers j).write_cnt
                ≤ (p.registers.registers j).write_cnt) := by
  obtain ⟨code, ipc, inpc, istage, iprg, iv1, iv2, ive, ivm⟩ := i
  constructor
  · intro hst i' p' h
    dsimp only at hst
    subst hst
    cases code <;> simp only [Inst.advance] at h <;> repeat' split at h
    all_goals (cases h)
    all_goals try exact Or.inl ⟨rfl, rfl⟩
    all_goals (
      refine Or.inr ⟨rfl, ?_⟩
      simp only [decodeLockReg]
      first
        | (refine ⟨by simp [RegisterFile.lock, Register.lock], ?_⟩
           intro j hj
           simp [RegisterFile.lock, hj])
        | (intro j; rfl)
        | (intro j; trivial)
        | trivial)
  · intro hst p' h j
    dsimp only at hst
    cases istage
    case Decode => exact absurd rfl hst
    case Fetch =>
      simp only [Inst.advance] at h
      repeat' split at h
      all_goals simp only [advProg] at h
      all_goals cases h
      all_goals exact Nat.le_refl _
    case Execute =>
      cases code <;> simp only [Inst.advance] at h <;> repeat' split at h
      all_goals simp only [advProg] at h
      all_goals cases h
      all_goals try dsimp only
      all_goals (
        first
          | exact Nat.le_refl _
          | (rw [cnt_forward] <;> exact Nat.le_refl _)
          | (exact cnt_unlock (by assumption) j)
          | (simp [Program.mem_store])
          | (exact le_trans (cnt_unlock (by assumption) j)
              (le_of_eq (cnt_write p.registers _ _ j))))
    case Memory =>
      cases code <;> simp only [Inst.advance] at h <;> repeat' split at h
      all_goals simp only [advProg] at h
      all_goals cases h
      all_goals try dsimp only
      all_goals (
        first
          | exact Nat.le_refl _
          | (rw [cnt_forward] <;> exact Nat.le_refl _)
          | (exact cnt_unlock (by assumption) j)
          | (simp [Program.mem_store])
          | (exact le_trans (cnt_unlock (by assumption) j)
              (le_of_eq (cnt_write p.registers _ _ j))))
    case Writeback =>
      cases code <;> simp only [Inst.advance] at h <;> repeat' split at h
      all_goals simp only [advProg] at h
      all_goals cases h
      all_goals try dsimp only
      all_goals (
        first
          | exact Nat.le_refl _
          | (rw [cnt_forward] <;> exact Nat.le_refl _)
          | (exact cnt_unlock (by assumption) j)
          | (simp [Program.mem_store])
          | (exact le_trans (cnt_unlock (by assumption) j)
              (le_of_eq (cnt_write p.registers _ _ j))))

/-- Decode instruction for the C6 witness: `add x5, x6, x7`. -/
def i6w : Inst :=
  { Inst.new with code := .Add RegID.X5 RegID.X6 RegID.X7, stage := .Decode }

/-- Register file with no pending writes anywhere. -/
def rf6w : RegisterFile :=
  { registers := fun j =>
      { id := j, value := 0, write_cnt := 0, forward_values := none,
        enable_forwarding := false } }

/-- Program for the C6 witness. -/
def p6w : Program :=
  { entry_point := 0, program_counter := 0, registers := rf6w, vmas := [] }

/-- Instruction state after the C6 witness decode step. -/
def i6wPost : Inst :=
  match i6w.advance p6w with
  | .ok i _ => i
  | _ => i6w

/-- Program state after the C6 witness decode step. -/
def p6wPost : Program :=
  match i6w.advance p6w with
  | .ok _ p => p
  | _ => p6w

/-- Witness for C6: decoding `add x5, x6, x7` with both sources ready locks
x5 exactly once and moves to Execute. -/
theorem c6_decode_lock_discipline_witness :
    i6w.advance p6w = .ok i6wPost p6wPost
    ∧ i6wPost.stage = .Execute
    ∧ (p6wPost.registers.registers RegID.X5).write_cnt
        = (p6w.registers.registers RegID.X5).write_cnt + 1 := by
  have h := (c6_decode_lock_discipline i6w p6w).1 rfl i6wPost p6wPost (by rfl)
  rcases h with ⟨hi, hp⟩ | ⟨hstage, hrest⟩
  · exact absurd (congrArg Inst.stage hi) (by decide)
  · exact ⟨rfl, hstage, hrest.1⟩

/-- `matches!(code, Mul(..)) || matches!(code, Mulh(..))` — the two-cycle
multiplier class of the pipeline driver. -/
def isMulClass : InstCode → Bool
  | .Mul _ _ _ | .Mulh _ _ _ => true
  | _ => false

/-- `matches!` test for the blocking divider class of the pipeline driver. -/
def isDivClass : InstCode → Bool
  | .Div _ _ _ | .Divw _ _ _ | .Rem _ _ _ | .Remw _ _ _ => true
  | _ => false

/-- `matches!(code, Jal(..)) || matches!(code, Jalr(..))`. -/
def isJalClass : InstCode → Bool
  | .Jal _ _ | .Jalr _ _ _ => true
  | _ => false

/-- State of the pipeline driver loop in `sim_pipeline` (src/main.rs lines
184-194): the five pipeline slots (indexed by stage in the source), the
extra `execute_mult` slot, the pending program counter, the counters, the
CPI-collection flag, the `empty` loop flag, and the program. -/
structure PipeState where
  pipelineFetch : Option Inst
  pipelineDecode : Option Inst
  pipelineExecute : Option Inst
  pipelineMemory : Option Inst
  pipelineWriteback : Option Inst
  execute_mult : Option Inst
  next_program_counter : Nat
  cycles : Nat
  instructions : Nat
  data_hazards : Nat
  control_hazards : Nat
  start_cpi_collection : Bool
  empty : Bool
  prog : Program

/-- The Execute-Mult step of one pipeline cycle (src/main.rs lines 249-272):
move the phase-two multiply to Memory when that slot is free, else stall.
`unreachable!()` arms are modeled as `none`. -/
def stepExecMult (s : PipeState) : Option PipeState :=
  match s.execute_mult with
  | none => some s
  | some inst =>
    let s1 := { s with execute_mult := none, empty := false }
    if s1.pipelineMemory.isNone then
      match inst.advance s1.prog with
      | .ok i pr =>
        if i.stage = .Memory then some { s1 with prog := pr, pipelineMemory := some i }
        else none
      | .err _ _ => none
      | .panic => none
    else some { s1 with execute_mult := some inst }

/-- The Execute step of one pipeline cycle (src/main.rs lines 274-372).  The
returned flag records whether a control transfer (jal/jalr advancing to
Memory, or a taken branch retiring with `Err`) was detected in this step —
exactly the two places where the source bubbles `pipeline[..Execute]` and
bumps `control_hazards`. -/
def stepExecute (s : PipeState) : Option (PipeState × Bool) :=
  match s.pipelineExecute with
  | none => some (s, false)
  | some inst =>
    let s1 := { s with pipelineExecute := none, empty := false }
    if isMulClass inst.code then
      if s1.execute_mult.isNone then
        match inst.advance s1.prog with
        | .ok i pr =>
          if i.stage = .Execute ∧ i.progress = 1 then
            some ({ s1 with prog := pr, execute_mult := some i }, false)
          else none
        | .err _ _ => none
        | .panic => none
      else some ({ s1 with pipelineExecute := some inst }, false)
    else if isDivClass inst.code then
      if inst.progress ≤ 38 ∨ s1.pipelineMemory.isNone = true then
        match inst.advance s1.prog with
        | .ok i pr =>
          if i.stage = .Memory then
            some ({ s1 with prog := pr, pipelineMemory := some i }, false)
          else some ({ s1 with prog := pr, pipelineExecute := some i }, false)
        | .err _ pr =>
          some ({ s1 with
                  prog := pr
                  next_program_counter := HLT_ADDR
                  pipelineFetch := none
                  pipelineDecode := none
                  instructions := if s1.start_cpi_collection then s1.instructions + 1
                                  else s1.instructions }, false)
        | .panic => none
      else some ({ s1 with pipelineExecute := some inst }, false)
    else
      if s1.pipelineMemory.isNone then
        match inst.advance s1.prog with
        | .ok i pr =>
          if i.stage = .Memory then
            if isJalClass i.code then
              some ({ s1 with
                      prog := pr
                      pipelineMemory := some i
                      next_program_counter := i.next_pc
                      pipelineFetch := none
                      pipelineDecode := none
                      control_hazards := if s1.start_cpi_collection then s1.control_hazards + 1
                                         else s1.control_hazards }, true)
            else some ({ s1 with prog := pr, pipelineMemory := some i }, false)
          else none
        | .err branch pr =>
          some ({ s1 with
                  prog := pr
                  next_program_counter := branch
                  pipelineFetch := none
                  pipelineDecode := none
                  control_hazards := if s1.start_cpi_collection then s1.control_hazards + 1
                                     else s1.control_hazards
                  instructions := if s1.start_cpi_collection then s1.instructions + 1
                                  else s1.instructions }, true)
        | .panic => none
      else some ({ s1 with pipelineExecute := some inst }, false)

/-- The `Decode ~ Writeback` loop of one sequential iteration (src/main.rs
lines 134-144), fuel-indexed because a Decode stall could in principle
repeat forever: advance until the instruction retires, counting a cycle per
`advance` call. -/
def seqLoop (fuel : Nat) (i : Inst) (p : Program) (cycles : Nat) :
    Option (Nat × Program × Nat) :=
  match fuel with
  | 0 => none
  | fuel + 1 =>
    match i.advance p with
    | .ok i2 p2 => seqLoop fuel i2 p2 (cycles + 1)
    | .err pc p2 => some (pc, p2, cycles + 1)
    | .panic => none

/-- One instruction's processing in `sim_seq` (src/main.rs lines 120-147):
fetch a fresh instruction (a fetch-stage retirement pushes its raw cycle
count, 1, unconditionally), else run the inner loop and, when CPI
collection has started, push the clamped count
`if cycles < 5 { 5 } else { cycles }`.  Returns the next program counter,
the updated program, and the list of entries appended to `cpi`. -/
def seqInstRun (fuel : Nat) (p : Program) (started : Bool) :
    Option (Nat × Program × List Nat) :=
  match Inst.new.advance p with
  | .err pc p2 => some (pc, p2, [1])
  | .ok i2 p2 =>
    match seqLoop fuel i2 p2 1 with
    | some (pc, p3, cycles) =>
      some (pc, p3, if started then [if cycles < 5 then 5 else cycles] else [])
    | none => none
  | .panic => none

/-- The measured cycle count of one sequential instruction whose fetch
succeeds (fetch plus the inner loop), used to state the C9 theorems. -/
def seqMeasure (fuel : Nat) (p : Program) : Option (Nat × Program × Nat) :=
  match Inst.new.advance p with
  | .ok i2 p2 => seqLoop fuel i2 p2 1
  | _ => none


/-- If the Execute-Mult step leaves the Memory slot empty, the `mul_phase2`
slot is empty as well: a waiting phase-two multiply either moved into
Memory (filling it) or stalled because Memory was already full. -/
theorem stepExecMult_mem_none {s s1 : PipeState} (h : stepExecMult s = some s1)
    (hm : s1.pipelineMemory = none) : s1.execute_mult = none := by
  unfold stepExecMult at h
  cases hem : s.execute_mult with
  | none => rw [hem] at h; cases h; exact hem
  | some inst =>
    rw [hem] at h
    dsimp only at h
    by_cases hmem : s.pipelineMemory.isNone
    · rw [if_pos hmem] at h
      cases hadv : inst.advance s.prog with
      | ok i pr =>
        rw [hadv] at h
        dsimp only at h
        by_cases hstg : i.stage = Stage.Memory
        · rw [if_pos hstg] at h
          cases h
          simp at hm
        · rw [if_neg hstg] at h
          cases h
      | err pc pr => rw [hadv] at h; cases h
      | panic => rw [hadv] at h; cases h
    · rw [if_neg hmem] at h
      cases h
      simp only [Option.isNone] at hmem
      rw [hm] at hmem
      simp at hmem

/-- C4: in a pipeline cycle (Execute-Mult step followed by the Execute
step), whenever the Execute step detects a jal, jalr, or taken branch, then
at the end of the Execute step the Fetch and Decode slots (the slots earlier
than Execute) and the `mul_phase2` slot are all empty, and the
control-hazard counter has been incremented by one exactly when CPI
collection has started. -/
theorem c4_control_hazard_flush (s s1 s2 : PipeState)
    (h1 : stepExecMult s = some s1)
    (h2 : stepExecute s1 = some (s2, true)) :
    s2.pipelineFetch = none ∧ s2.pipelineDecode = none ∧ s2.execute_mult = none
    ∧ s2.control_hazards =
        (if s1.start_cpi_collection then s1.control_hazards + 1
         else s1.control_hazards) := by
  unfold stepExecute at h2
  cases hex : s1.pipelineExecute with
  | none => rw [hex] at h2; cases h2
  | some inst =>
    rw [hex] at h2
    dsimp only at h2
    by_cases hmul : isMulClass inst.code
    · rw [if_pos hmul] at h2
      by_cases hem : s1.execute_mult.isNone
      · rw [if_pos hem] at h2
        cases hadv : inst.advance s1.prog with
        | ok i pr =>
          rw [hadv] at h2
          dsimp only at h2
          by_cases hc : i.stage = Stage.Execute ∧ i.progress = 1
          · rw [if_pos hc] at h2; cases h2
          · rw [if_neg hc] at h2; cases h2
        | err pc pr => rw [hadv] at h2; cases h2
        | panic => rw [hadv] at h2; cases h2
      · rw [if_neg hem] at h2; cases h2
    · rw [if_neg hmul] at h2
      by_cases hdiv : isDivClass inst.code
      · rw [if_pos hdiv] at h2
        by_cases hg : inst.progress ≤ 38 ∨ s1.pipelineMemory.isNone = true
        · rw [if_pos hg] at h2
          cases hadv : inst.advance s1.prog with
          | ok i pr =>
            rw [hadv] at h2
            dsimp only at h2
            by_cases hstg : i.stage = Stage.Memory
            · rw [if_pos hstg] at h2; cases h2
            · rw [if_neg hstg] at h2; cases h2
          | err pc pr => rw [hadv] at h2; cases h2
          | panic => rw [hadv] at h2; cases h2
        · rw [if_neg hg] at h2; cases h2
      · rw [if_neg hdiv] at h2
        by_cases hmem : s1.pipelineMemory.isNone
        · rw [if_pos hmem] at h2
          have hmn : s1.pipelineMemory = none := Option.isNone_iff_eq_none.mp hmem
          have hemn : s1.execute_mult = none := stepExecMult_mem_none h1 hmn
          cases hadv : inst.advance s1.prog with
          | ok i pr =>
            rw [hadv] at h2
            dsimp only at h2
            by_cases hstg : i.stage = Stage.Memory
            · rw [if_pos hstg] at h2
              by_cases hjal : isJalClass i.code
              · rw [if_pos hjal] at h2
                cases h2
                exact ⟨rfl, rfl, hemn, rfl⟩
              · rw [if_neg hjal] at h2
                cases h2
            · rw [if_neg hstg] at h2
              cases h2
          | err branch pr =>
            rw [hadv] at h2
            cases h2
            exact ⟨rfl, rfl, hemn, rfl⟩
          | panic => rw [hadv] at h2; cases h2
        · rw [if_neg hmem] at h2; cases h2

/-- C9 (amended): in the sequential driver, an instruction whose fetch
succeeds and that retires within `fuel` further cycles records
`max(measured cycles, 5)` into the CPI list when collection has started,
while an instruction that retires during Fetch records its raw cycle count
(1 cycle) regardless of whether collection has started. -/
theorem c9_seq_cpi_clamp (fuel : Nat) (p : Program) :
    (∀ pc pf c, seqMeasure fuel p = some (pc, pf, c) →
        seqInstRun fuel p true = some (pc, pf, [max c 5]))
    ∧ (∀ started pc pf, Inst.new.advance p = .err pc pf →
        seqInstRun fuel p started = some (pc, pf, [1])) := by
  constructor
  · intro pc pf c h
    unfold seqMeasure at h
    unfold seqInstRun
    cases hf : Inst.new.advance p with
    | ok i2 p2 =>
      rw [hf] at h
      dsimp only at h ⊢
      rw [h]
      dsimp only
      have hm : (if c < 5 then 5 else c) = max c 5 := by
        rcases Nat.lt_or_ge c 5 with h5 | h5
        · rw [if_pos h5]; omega
        · rw [if_neg (by omega)]; omega
      rw [if_pos rfl, hm]
    | err pc2 p2 => rw [hf] at h; cases h
    | panic => rw [hf] at h; cases h
  · intro started pc pf h
    unfold seqInstRun
    rw [h]

/-- Jal instruction in Execute (target pc 0x100 + 8). -/
def i4w : Inst :=
  { Inst.new with code := .Jal RegID.X1 8, stage := .Execute, pc := 0x100 }

/-- Pipeline state about to execute `i4w`, with an instruction in Decode and
CPI collection started. -/
def s4w : PipeState :=
  { pipelineFetch := none
    pipelineDecode := some Inst.new
    pipelineExecute := some i4w
    pipelineMemory := none
    pipelineWriteback := none
    execute_mult := none
    next_program_counter := 0x104
    cycles := 0
    instructions := 0
    data_hazards := 0
    control_hazards := 3
    start_cpi_collection := true
    empty := true
    prog := p6w }

/-- Pipeline state after the C4 witness Execute step. -/
def s4wPost : PipeState :=
  match stepExecute s4w with
  | some (x, _) => x
  | none => s4w

/-- Witness for C4 at a concrete jal in Execute. -/
theorem c4_control_hazard_flush_witness :
    stepExecMult s4w = some s4w
    ∧ stepExecute s4w = some (s4wPost, true)
    ∧ s4wPost.pipelineFetch = none ∧ s4wPost.pipelineDecode = none
    ∧ s4wPost.execute_mult = none
    ∧ s4wPost.control_hazards = s4w.control_hazards + 1 := by
  have h := c4_control_hazard_flush s4w s4w s4wPost rfl (by rfl)
  exact ⟨rfl, by rfl, h.1, h.2.1, h.2.2.1, by rw [h.2.2.2]; rfl⟩

/-- Program whose very first fetch fails (no VMAs at all). -/
def p9x : Program :=
  { entry_point := 0, program_counter := 0, registers := rf6w, vmas := [] }

/-- C9 counterexample: an instruction that retires during Fetch after CPI
collection has started is recorded with its raw count 1, not
`max(1, 5) = 5` as the claim requires (the `cpi.push(cycles)` at
src/main.rs line 127 has neither the clamp nor the collection check). -/
theorem c9_fetch_abort_counterexample :
    seqInstRun 1 p9x true = some (HLT_ADDR, p9x, [1]) ∧ (1 : Nat) ≠ max 1 5 :=
  ⟨rfl, by decide⟩

/-- Code VMA holding a single `addi x0, x0, 0` (0x00000013). -/
def vma9w : VMA :=
  { lower_bound := 0, size := 4, readable := true, writeble := false,
    executable := true, memory := [0x13, 0, 0, 0] }

/-- Program for the C9 witness: one nop at address 0. -/
def p9w : Program :=
  { entry_point := 0, program_counter := 0, registers := rf6w, vmas := [vma9w] }

/-- Program state after the C9 witness instruction retires. -/
def seq9wPost : Program :=
  match seqMeasure 4 p9w with
  | some (_, pf, _) => pf
  | none => p9w

/-- Witness for the amended C9: the 5-cycle nop records exactly 5. -/
theorem c9_seq_cpi_clamp_witness :
    seqInstRun 4 p9w true = some (4, seq9wPost, [5]) := by
  have h := (c9_seq_cpi_clamp 4 p9w).1 4 seq9wPost 5 (by rfl)
  simpa using h
